import Mathlib

/-!
Shallow embedding of the core of the workout-tracker application
(`src/database.py`, `src/app.py`, `src/utils.py`).

Conventions of the embedding:
* SQL `REAL` values (weights, minutes, miles) are modelled as `ℚ`;
  Python `float` arithmetic is modelled exactly (rational arithmetic).
* Calendar dates are modelled as integers (day numbers); the SQL
  comparison `workout_date < d` becomes integer `<`.
* A SQL aggregate (`MAX`, `MIN`) over an empty selection returns `NULL`,
  modelled by `Option`; the Python idiom
  `row['v'] if row and row['v'] else default` collapses both `NULL` and
  the falsy value `0` to the default, modelled by `pyOrElse`.
* Python `int()` on a non-negative value truncates (it is `floor` there);
  `x % 1` is `x - ⌊x⌋`.
-/

namespace WorkoutTracker

/-- Python `v if v else d` applied to an optional numeric SQL aggregate:
`NULL` (`none`) and the falsy number `0` both fall back to the default. -/
def pyOrElse (o : Option ℚ) (d : ℚ) : ℚ :=
  match o with
  | none => d
  | some v => if v = 0 then d else v

/-- SQL `MAX` aggregate: `NULL` on an empty selection. -/
def sqlMax : List ℚ → Option ℚ
  | [] => none
  | x :: xs =>
    some (match sqlMax xs with
          | none => x
          | some m => max x m)

/-- SQL `MIN` aggregate: `NULL` on an empty selection. -/
def sqlMin : List ℚ → Option ℚ
  | [] => none
  | x :: xs =>
    some (match sqlMin xs with
          | none => x
          | some m => min x m)

/-- Python `int()` conversion: truncation toward zero. -/
def pyInt (q : ℚ) : ℤ := if 0 ≤ q then ⌊q⌋ else -⌊-q⌋

/-- Python `x % 1` (for a float `x`): `x - ⌊x⌋`. -/
def pyMod1 (q : ℚ) : ℚ := q - ⌊q⌋

/-- A stored strength set joined with its workout date
(`sets s JOIN workouts w`): the columns used by `check_if_pr`. -/
structure StrengthRow where
  exercise_id : Nat
  weight : ℚ
  reps : Nat
  workout_date : Int
deriving DecidableEq

/-- The rows selected by `WHERE s.exercise_id = ex AND w.workout_date < d`. -/
def priorStrength (rows : List StrengthRow) (ex : Nat) (d : Int) :
    List StrengthRow :=
  rows.filter fun r => decide (r.exercise_id = ex ∧ r.workout_date < d)

/-- Result record of `database.check_if_pr`. -/
structure PrResult where
  is_weight_pr : Bool
  previous_max : ℚ
  is_1rm_pr : Bool
  previous_1rm : ℚ
deriving DecidableEq

/-- `app.calculate_estimated_1rm`: Epley formula with the `reps == 1`
special case. -/
def calculate_estimated_1rm (weight : ℚ) (reps : Nat) : ℚ :=
  if reps = 1 then weight else weight * (1 + (reps : ℚ) / 30)

/-- `database.check_if_pr(exercise_id, weight, reps, workout_date)` over the
joined `sets`/`workouts` rows `rows`.  The previous-max aggregates run over
rows of the exercise strictly before the candidate date.  Note that the
prior-1RM SQL aggregate is `MAX(weight * (1 + reps / 30.0))`, with no
`reps == 1` special case, while the candidate's 1RM
(`weight * (1 + reps / 30.0) if reps > 1 else weight`) has one. -/
def check_if_pr (rows : List StrengthRow) (ex : Nat) (weight : ℚ)
    (reps : Nat) (d : Int) : PrResult :=
  let prior := priorStrength rows ex d
  let prev_max := pyOrElse (sqlMax (prior.map (·.weight))) 0
  let is_weight_pr := decide (weight > prev_max)
  let current_1rm := if 1 < reps then weight * (1 + (reps : ℚ) / 30) else weight
  let prev_1rm :=
    pyOrElse (sqlMax (prior.map fun r => r.weight * (1 + (r.reps : ℚ) / 30))) 0
  let is_1rm_pr := decide (current_1rm > prev_1rm)
  ⟨is_weight_pr, prev_max, is_1rm_pr, prev_1rm⟩

/-- Spec-side reading of "maximum weight over all prior sets of that
exercise strictly before the candidate date (0 when no history)". -/
def specPriorMaxWeight (rows : List StrengthRow) (ex : Nat) (d : Int) : ℚ :=
  match (priorStrength rows ex d).map (·.weight) with
  | [] => 0
  | x :: xs => xs.foldl max x

/-- Spec-side reading of C2's "maximum of estimated_1rm(w, r) over all prior
sets (defaulting to 0)", with `estimated_1rm` applying the `reps == 1` case
to the prior sets as the claim asserts. -/
def specPrior1rmClaim (rows : List StrengthRow) (ex : Nat) (d : Int) : ℚ :=
  match (priorStrength rows ex d).map
      (fun r => calculate_estimated_1rm r.weight r.reps) with
  | [] => 0
  | x :: xs => xs.foldl max x

/-- Maximum of `w * (1 + r / 30)` over the prior sets, with no `reps == 1`
special case (default 0): the aggregate the code actually computes. -/
def specPrior1rmSql (rows : List StrengthRow) (ex : Nat) (d : Int) : ℚ :=
  match (priorStrength rows ex d).map
      (fun r => r.weight * (1 + (r.reps : ℚ) / 30)) with
  | [] => 0
  | x :: xs => xs.foldl max x

lemma pyOrElse_zero (o : Option ℚ) : pyOrElse o 0 = o.getD 0 := by
  cases o with
  | none => rfl
  | some v =>
    by_cases h : v = 0 <;> simp [pyOrElse, h]

lemma sqlMax_cons_eq_foldl (x : ℚ) (xs : List ℚ) :
    sqlMax (x :: xs) = some (xs.foldl max x) := by
  induction xs generalizing x with
  | nil => rfl
  | cons y ys ih =>
    have h1 := ih y
    have h2 := ih (max x y)
    simp only [sqlMax] at h1 h2 ⊢
    have hy : (match sqlMax ys with | none => y | some m => max y m)
        = ys.foldl max y := by
      have := h1
      simp only [Option.some.injEq] at this
      exact this
    have hxy : (match sqlMax ys with | none => max x y | some m => max (max x y) m)
        = ys.foldl max (max x y) := by
      have := h2
      simp only [Option.some.injEq] at this
      exact this
    rw [List.foldl_cons]
    rw [← hxy]
    cases hm : sqlMax ys with
    | none => simp [hy.symm, hm]
    | some m =>
      simp only [hm]
      simp only [Option.some.injEq]
      exact (max_assoc x y m).symm

lemma check_if_pr_prev_max (rows : List StrengthRow) (ex : Nat) (weight : ℚ)
    (reps : Nat) (d : Int) :
    (check_if_pr rows ex weight reps d).previous_max
      = specPriorMaxWeight rows ex d := by
  unfold check_if_pr specPriorMaxWeight
  cases h : (priorStrength rows ex d).map (·.weight) with
  | nil => simp [h, sqlMax, pyOrElse]
  | cons x xs =>
    simp only [h, sqlMax_cons_eq_foldl, pyOrElse_zero, Option.getD_some]

lemma check_if_pr_prev_1rm (rows : List StrengthRow) (ex : Nat) (weight : ℚ)
    (reps : Nat) (d : Int) :
    (check_if_pr rows ex weight reps d).previous_1rm
      = specPrior1rmSql rows ex d := by
  unfold check_if_pr specPrior1rmSql
  cases h : (priorStrength rows ex d).map
      (fun r => r.weight * (1 + (r.reps : ℚ) / 30)) with
  | nil => simp [h, sqlMax, pyOrElse]
  | cons x xs =>
    simp only [h, sqlMax_cons_eq_foldl, pyOrElse_zero, Option.getD_some]

lemma is_weight_pr_iff (rows : List StrengthRow) (ex : Nat) (w : ℚ)
    (reps : Nat) (d : Int) :
    (check_if_pr rows ex w reps d).is_weight_pr = true
      ↔ w > specPriorMaxWeight rows ex d := by
  rw [← check_if_pr_prev_max rows ex w reps d]
  simp [check_if_pr]

lemma is_1rm_pr_iff (rows : List StrengthRow) (ex : Nat) (w : ℚ)
    (reps : Nat) (d : Int) :
    (check_if_pr rows ex w reps d).is_1rm_pr = true
      ↔ (if 1 < reps then w * (1 + (reps : ℚ) / 30) else w)
          > specPrior1rmSql rows ex d := by
  rw [← check_if_pr_prev_1rm rows ex w reps d]
  simp [check_if_pr]

lemma current_1rm_eq_calculate (w : ℚ) (reps : Nat) :
    (if 1 < reps then w * (1 + (reps : ℚ) / 30) else w)
      = calculate_estimated_1rm w reps := by
  unfold calculate_estimated_1rm
  match reps with
  | 0 => norm_num
  | 1 => norm_num
  | (n + 2) =>
    have h1 : 1 < n + 2 := by omega
    have h2 : n + 2 ≠ 1 := by omega
    simp [h1, h2]

/-- C5: `check_if_pr` sets `is_weight_pr` exactly when the candidate weight
strictly exceeds the maximum weight among sets of the exercise strictly
before the candidate date (0 with no history); equality with the current
best is not a PR, and a first-ever set with positive weight is one. -/
theorem C5_weight_pr (rows : List StrengthRow) (ex : Nat) (w : ℚ)
    (reps : Nat) (d : Int) :
    ((check_if_pr rows ex w reps d).is_weight_pr = true
        ↔ w > specPriorMaxWeight rows ex d)
    ∧ (w = specPriorMaxWeight rows ex d
        → (check_if_pr rows ex w reps d).is_weight_pr = false)
    ∧ (priorStrength rows ex d = [] → 0 < w
        → (check_if_pr rows ex w reps d).is_weight_pr = true) := by
  refine ⟨is_weight_pr_iff rows ex w reps d, ?_, ?_⟩
  · intro he
    rw [← Bool.not_eq_true]
    intro hT
    have := (is_weight_pr_iff rows ex w reps d).1 hT
    rw [he] at this
    exact lt_irrefl _ this
  · intro hempty hw
    rw [is_weight_pr_iff rows ex w reps d]
    unfold specPriorMaxWeight
    rw [hempty]
    simpa using hw

theorem C5_weight_pr_witness :
    (check_if_pr [] 1 5 3 0).is_weight_pr = true := by
  have h := C5_weight_pr [] 1 5 3 0
  exact h.2.2 rfl (by norm_num)

/-- C2 (amended): `is_1rm_pr` holds exactly when the candidate's estimated
1RM (Epley with the `reps == 1` special case) strictly exceeds the maximum
of `w * (1 + r / 30)` over all prior sets of the exercise strictly before the
candidate date (0 with no history) — the prior side is computed by the SQL
aggregate without the `reps == 1` special case. -/
theorem C2_1rm_pr_amended (rows : List StrengthRow) (ex : Nat) (w : ℚ)
    (reps : Nat) (d : Int) :
    (check_if_pr rows ex w reps d).is_1rm_pr = true
      ↔ calculate_estimated_1rm w reps > specPrior1rmSql rows ex d := by
  rw [← current_1rm_eq_calculate w reps]
  exact is_1rm_pr_iff rows ex w reps d

/-- C2 (counterexample): with a single prior set of 300 lbs at `reps = 1`
and a candidate of 305 lbs at `reps = 1` on a later date, the claim predicts
`is_1rm_pr = true` (305 exceeds the prior per-formula maximum 300), but the
code computes the prior 1RM as `300 * (1 + 1/30) = 310` (no `reps == 1`
case in the SQL) and reports `is_1rm_pr = false`. -/
theorem C2_1rm_pr_counterexample :
    ¬ (((check_if_pr [⟨1, 300, 1, 0⟩] 1 305 1 1).is_1rm_pr = true)
        ↔ calculate_estimated_1rm 305 1
            > specPrior1rmClaim [⟨1, 300, 1, 0⟩] 1 1) := by
  intro h
  have hR : calculate_estimated_1rm 305 1
      > specPrior1rmClaim [⟨1, 300, 1, 0⟩] 1 1 := by
    norm_num [calculate_estimated_1rm, specPrior1rmClaim, priorStrength]
  have hL := h.2 hR
  have h2 := (is_1rm_pr_iff [⟨1, 300, 1, 0⟩] 1 305 1 1).1 hL
  norm_num [specPrior1rmSql, priorStrength] at h2

/-- A stored running set joined with its workout date: `reps` holds the
fixed-point `miles * 10` integer, `weight` holds the elapsed minutes. -/
structure RunRow where
  exercise_id : Nat
  reps : Int
  weight : ℚ
  workout_date : Int
deriving DecidableEq

/-- Result record of `database.check_running_pr`. -/
structure RunPrResult where
  is_pace_pr : Bool
  previous_best_pace : ℚ
  is_distance_pr : Bool
  previous_max_distance : ℚ
deriving DecidableEq

/-- The running rows selected by
`WHERE s.exercise_id = ex AND w.workout_date < d`. -/
def priorRun (rows : List RunRow) (ex : Nat) (d : Int) : List RunRow :=
  rows.filter fun r => decide (r.exercise_id = ex ∧ r.workout_date < d)

/-- `database.check_running_pr(exercise_id, miles, time_minutes, workout_date)`.
The best prior pace is `MIN(weight / (reps / 10.0))` over prior rows of the
exercise; a `NULL` (or falsy `0`) aggregate falls back to the sentinel `999`,
and `is_pace_pr = current_pace < prev_best_pace`. -/
def check_running_pr (rows : List RunRow) (ex : Nat)
    (miles time_minutes : ℚ) (d : Int) : RunPrResult :=
  let prior := priorRun rows ex d
  let current_pace := time_minutes / miles
  let prev_best_pace :=
    pyOrElse (sqlMin (prior.map fun r => r.weight / ((r.reps : ℚ) / 10))) 999
  let is_pace_pr := decide (current_pace < prev_best_pace)
  let prev_max_distance :=
    pyOrElse (sqlMax (prior.map fun r => (r.reps : ℚ) / 10)) 0
  let is_distance_pr := decide (miles > prev_max_distance)
  ⟨is_pace_pr, if prev_best_pace = 999 then 0 else prev_best_pace,
    is_distance_pr, prev_max_distance⟩

/-- C1 (counterexample): a first-ever run (no prior rows at all) of 3 miles
in 30 minutes has pace `10 < 999`, so `check_running_pr` reports
`is_pace_pr = true`, contradicting the claim that the first-ever running
entry never sets the pace-PR flag. -/
theorem C1_first_run_pace_counterexample :
    (0:ℚ) < 3 ∧ (0:ℚ) < 30
      ∧ (check_running_pr [] 1 3 30 0).is_pace_pr = true := by
  refine ⟨by norm_num, by norm_num, ?_⟩
  norm_num [check_running_pr, priorRun, sqlMin, pyOrElse]

/-- C1 (amended): with no prior running rows for the exercise strictly
before the candidate date, the prior best pace falls back to the sentinel
`999` (not "infinitely slow"), so `is_pace_pr = (time_minutes / miles < 999)`:
the first-ever running entry does set the pace-PR flag whenever its pace is
below 999 minutes per mile. -/
theorem C1_first_run_pace_amended (rows : List RunRow) (ex : Nat)
    (miles time_minutes : ℚ) (d : Int) (hprior : priorRun rows ex d = []) :
    (check_running_pr rows ex miles time_minutes d).is_pace_pr
      = decide (time_minutes / miles < 999) := by
  simp only [check_running_pr, hprior, List.map_nil, sqlMin, pyOrElse]

theorem C1_first_run_pace_witness :
    (check_running_pr [] 1 5 40 0).is_pace_pr = true := by
  rw [C1_first_run_pace_amended [] 1 5 40 0 rfl]
  norm_num

/-- The `reps` value the add-run flow persists: `app.py` passes
`int(miles * 10)` (Python truncation) as the `reps` argument of
`database.add_set`, which stores it verbatim. -/
def add_run_stored_reps (miles : ℚ) : Int := pyInt (miles * 10)

/-- C3 (counterexample): at `miles = 0.35` the flow stores
`int(3.5) = 3`, but `round(miles * 10) = round(3.5) = 4`: the stored value
is the truncation, not the rounding, of `miles * 10`. -/
theorem C3_stored_reps_counterexample :
    (0:ℚ) ≤ 7/20 ∧ add_run_stored_reps (7/20) = 3
      ∧ round ((7/20 : ℚ) * 10) = 4 := by
  refine ⟨by norm_num, ?_, ?_⟩
  · have h : (0:ℚ) ≤ 7/20 * 10 := by norm_num
    unfold add_run_stored_reps pyInt
    rw [if_pos h, Int.floor_eq_iff]
    norm_num
  · rw [round_eq, Int.floor_eq_iff]
    norm_num

/-- C3 (amended): for every input `miles ≥ 0` the run flow stores
`reps = ⌊miles * 10⌋` (truncation toward zero, which is the floor on
non-negative input), a non-negative integer. -/
theorem C3_stored_reps_amended (miles : ℚ) (h : 0 ≤ miles) :
    add_run_stored_reps miles = ⌊miles * 10⌋
      ∧ 0 ≤ add_run_stored_reps miles := by
  have hm : (0:ℚ) ≤ miles * 10 := by positivity
  unfold add_run_stored_reps pyInt
  rw [if_pos hm]
  exact ⟨rfl, Int.floor_nonneg.2 hm⟩

theorem C3_stored_reps_witness : add_run_stored_reps 3 = 30 := by
  have h := C3_stored_reps_amended 3 (by norm_num)
  rw [h.1]
  rw [show ((3:ℚ) * 10) = ((30:ℤ) : ℚ) by norm_num]
  exact Int.floor_intCast 30

/-- The pace display of `app.py`
(`f"{int(pace)}:{int((pace % 1) * 60):02d}"`): minutes are `int(pace)` and
seconds are `int((pace % 1) * 60)`, both Python truncations. -/
def paceDisplay (p : ℚ) : Int × Int := (pyInt p, pyInt (pyMod1 p * 60))

/-- C9 (counterexample): at pace `p = 8.51` min/mile the fractional part is
`0.51`, giving `0.51 * 60 = 30.6` seconds; the code truncates to `30`
while the claimed formula `round((p - ⌊p⌋) * 60)` yields `31`. -/
theorem C9_pace_display_counterexample :
    (0:ℚ) < 851/100 ∧ (paceDisplay (851/100)).2 = 30
      ∧ round (((851:ℚ)/100 - ⌊(851:ℚ)/100⌋) * 60) = 31 := by
  have hfl : ⌊(851:ℚ)/100⌋ = 8 := by
    rw [Int.floor_eq_iff]
    norm_num
  refine ⟨by norm_num, ?_, ?_⟩
  · have h : (0:ℚ) ≤ pyMod1 (851/100) * 60 := by
      rw [pyMod1, hfl]
      norm_num
    unfold paceDisplay pyInt
    rw [if_pos h, pyMod1, hfl, Int.floor_eq_iff]
    norm_num
  · rw [hfl, round_eq, Int.floor_eq_iff]
    norm_num

/-- C9 (amended): for every pace `p > 0` the display shows minutes
`M = ⌊p⌋` and seconds `SS = ⌊(p - ⌊p⌋) * 60⌋` — the seconds are truncated,
not rounded — and the seconds always lie in `[0, 60)` (so the two-digit
zero-padding never sees `60`). -/
theorem C9_pace_display_amended (p : ℚ) (hp : 0 < p) :
    paceDisplay p = (⌊p⌋, ⌊(p - ⌊p⌋) * 60⌋)
      ∧ 0 ≤ (paceDisplay p).2 ∧ (paceDisplay p).2 < 60 := by
  have hfr0 : (0:ℚ) ≤ p - ⌊p⌋ := by
    have := Int.floor_le p
    linarith
  have hfr1 : p - ⌊p⌋ < 1 := by
    have := Int.lt_floor_add_one p
    linarith
  have hs0 : (0:ℚ) ≤ (p - ⌊p⌋) * 60 := by positivity
  have heq : paceDisplay p = (⌊p⌋, ⌊(p - ⌊p⌋) * 60⌋) := by
    unfold paceDisplay pyInt pyMod1
    rw [if_pos (le_of_lt hp), if_pos hs0]
  refine ⟨heq, ?_, ?_⟩
  · rw [heq]
    exact Int.floor_nonneg.2 hs0
  · rw [heq]
    show ⌊(p - ⌊p⌋) * 60⌋ < (60:ℤ)
    rw [Int.floor_lt]
    push_cast
    nlinarith

theorem C9_pace_display_witness :
    0 ≤ (paceDisplay (17/2)).2 ∧ (paceDisplay (17/2)).2 < 60 :=
  ⟨(C9_pace_display_amended (17/2) (by norm_num)).2.1,
   (C9_pace_display_amended (17/2) (by norm_num)).2.2⟩

/-- A row of the `sets` table together with its insertion timestamp
(`created_at`, modelled as a natural number). -/
structure SetRow where
  id : Nat
  workout_id : Nat
  exercise_id : Nat
  set_number : Nat
  reps : Int
  weight : ℚ
  created_at : Nat
deriving DecidableEq

/-- The rows of one `(workout_id, exercise_id)` pair
(`WHERE workout_id = w AND exercise_id = e`). -/
def pairSets (st : List SetRow) (w e : Nat) : List SetRow :=
  st.filter fun r => decide (r.workout_id = w ∧ r.exercise_id = e)

/-- `SELECT COALESCE(MAX(set_number), 0) FROM sets WHERE workout_id = w AND
exercise_id = e`. -/
def maxSetNumber (st : List SetRow) (w e : Nat) : Nat :=
  ((pairSets st w e).map (·.set_number)).foldr max 0

/-- `database.add_set`: assigns
`set_number = COALESCE(MAX(set_number), 0) + 1` for the pair and inserts the
row.  The fresh row `id` and `created_at` timestamp the database would
generate are supplied explicitly. -/
def add_set (st : List SetRow) (w e : Nat) (reps : Int) (weight : ℚ)
    (id ts : Nat) : List SetRow :=
  ⟨id, w, e, maxSetNumber st w e + 1, reps, weight, ts⟩ :: st

/-- `database.delete_set`: `DELETE FROM sets WHERE id = set_id`; no
existence check and no renumbering. -/
def delete_set (st : List SetRow) (set_id : Nat) : List SetRow :=
  st.filter fun r => decide (¬ r.id = set_id)

lemma foldr_max_le {l : List Nat} {m : Nat} (h : ∀ x ∈ l, x ≤ m) :
    l.foldr max 0 ≤ m := by
  induction l with
  | nil => exact Nat.zero_le m
  | cons x xs ih =>
    simp only [List.foldr_cons]
    exact max_le (h x (List.mem_cons_self x xs))
      (ih fun y hy => h y (List.mem_cons_of_mem x hy))

lemma mem_le_foldr_max {l : List Nat} {x : Nat} (h : x ∈ l) :
    x ≤ l.foldr max 0 := by
  induction l with
  | nil => cases h
  | cons y ys ih =>
    simp only [List.foldr_cons]
    rcases List.mem_cons.1 h with rfl | hmem
    · exact le_max_left _ _
    · exact le_trans (ih hmem) (le_max_right _ _)

lemma foldr_max_eq {l : List Nat} {m : Nat} (hm : m ∈ l)
    (h : ∀ x ∈ l, x ≤ m) : l.foldr max 0 = m :=
  le_antisymm (foldr_max_le h) (mem_le_foldr_max hm)

/-- C4 (counterexample): on one `(workout, exercise)` pair, add two sets
(numbers 1 and 2), delete the set numbered 2 (the current maximum), then
add a new set: `COALESCE(MAX(set_number), 0) + 1` over the remaining sets
yields 2 again, so the deleted set's number IS reused, and the sequence of
assigned numbers 1, 2, 2 is not strictly increasing. -/
theorem C4_set_number_counterexample :
    (add_set [] 1 1 10 100 11 0 = [⟨11, 1, 1, 1, 10, 100, 0⟩])
    ∧ (add_set [⟨11, 1, 1, 1, 10, 100, 0⟩] 1 1 8 105 12 1
        = [⟨12, 1, 1, 2, 8, 105, 1⟩, ⟨11, 1, 1, 1, 10, 100, 0⟩])
    ∧ (delete_set [⟨12, 1, 1, 2, 8, 105, 1⟩, ⟨11, 1, 1, 1, 10, 100, 0⟩] 12
        = [⟨11, 1, 1, 1, 10, 100, 0⟩])
    ∧ (add_set [⟨11, 1, 1, 1, 10, 100, 0⟩] 1 1 8 110 13 2
        = [⟨13, 1, 1, 2, 8, 110, 2⟩, ⟨11, 1, 1, 1, 10, 100, 0⟩]) :=
  ⟨rfl, rfl, rfl, rfl⟩

/-- C4 (amended): each `add_set` assigns
`set_number = max(existing set_numbers for the pair) + 1` (1 when none
exist), which strictly exceeds every set_number currently stored for the
pair; numbers below the surviving maximum are never reused (the claim's own
example — delete set 2 of 3, then add — yields 4), but deleting the
maximum-numbered set lets its number be assigned again. -/
theorem C4_set_number_amended (st : List SetRow) (w e : Nat) (reps : Int)
    (weight : ℚ) (id ts : Nat) :
    ((add_set st w e reps weight id ts).head?
        = some ⟨id, w, e, maxSetNumber st w e + 1, reps, weight, ts⟩)
    ∧ (∀ r ∈ st, r.workout_id = w → r.exercise_id = e →
        r.set_number < maxSetNumber st w e + 1)
    ∧ ((∀ r ∈ st, ¬ (r.workout_id = w ∧ r.exercise_id = e))
        → maxSetNumber st w e + 1 = 1)
    ∧ ((add_set (delete_set [⟨3, 1, 1, 3, 5, 50, 2⟩, ⟨2, 1, 1, 2, 5, 50, 1⟩,
          ⟨1, 1, 1, 1, 5, 50, 0⟩] 2) 1 1 5 50 4 3).head?.map (·.set_number)
        = some 4) := by
  refine ⟨rfl, ?_, ?_, rfl⟩
  · intro r hr hw he
    have hmem : r ∈ pairSets st w e :=
      List.mem_filter.2 ⟨hr, by simp [hw, he]⟩
    have : r.set_number ∈ (pairSets st w e).map (·.set_number) :=
      List.mem_map_of_mem _ hmem
    exact Nat.lt_succ_of_le (mem_le_foldr_max this)
  · intro h
    have hempty : pairSets st w e = [] := by
      unfold pairSets
      rw [List.filter_eq_nil_iff]
      intro a ha
      simpa using h a ha
    unfold maxSetNumber
    rw [hempty]
    rfl

theorem C4_set_number_witness : maxSetNumber ([] : List SetRow) 1 1 + 1 = 1 :=
  (C4_set_number_amended [] 1 1 0 0 9 9).2.2.1 fun r hr => absurd hr
    (List.not_mem_nil r)

/-- The fold that models `ORDER BY created_at DESC LIMIT 1`: select the row
with the greatest `created_at`. -/
def pickLater (acc : Option SetRow) (r : SetRow) : Option SetRow :=
  match acc with
  | none => some r
  | some b => if b.created_at < r.created_at then some r else some b

/-- The most recent set of the pair
(`SELECT id FROM sets WHERE workout_id = w AND exercise_id = e
ORDER BY created_at DESC LIMIT 1`). -/
def lastSet? (st : List SetRow) (w e : Nat) : Option SetRow :=
  (pairSets st w e).foldl pickLater none

/-- `database.update_last_set_hr`: overwrite the most recent matching set's
`set_number` column with the heart rate. -/
def update_last_set_hr (st : List SetRow) (w e hr : Nat) : List SetRow :=
  match lastSet? st w e with
  | none => st
  | some c =>
    st.map fun r => if r.id = c.id then { r with set_number := hr } else r

lemma foldl_pickLater_mem (l : List SetRow) :
    ∀ (acc : Option SetRow) (r : SetRow),
      l.foldl pickLater acc = some r → acc = some r ∨ r ∈ l := by
  induction l with
  | nil =>
    intro acc r h
    exact Or.inl h
  | cons x xs ih =>
    intro acc r h
    rw [List.foldl_cons] at h
    rcases ih (pickLater acc x) r h with hacc | hmem
    · cases acc with
      | none =>
        right
        simp only [pickLater] at hacc
        rw [Option.some.injEq] at hacc
        rw [← hacc]
        exact List.mem_cons_self x xs
      | some b =>
        simp only [pickLater] at hacc
        by_cases hlt : b.created_at < x.created_at
        · rw [if_pos hlt, Option.some.injEq] at hacc
          right
          rw [← hacc]
          exact List.mem_cons_self x xs
        · rw [if_neg hlt] at hacc
          exact Or.inl hacc
    · right
      exact List.mem_cons_of_mem x hmem

lemma lastSet?_mem {st : List SetRow} {w e : Nat} {c : SetRow}
    (h : lastSet? st w e = some c) :
    c ∈ st ∧ c.workout_id = w ∧ c.exercise_id = e := by
  unfold lastSet? at h
  rcases foldl_pickLater_mem _ none c h with h0 | hmem
  · cases h0
  · have := List.mem_filter.1 hmem
    refine ⟨this.1, ?_⟩
    simpa using this.2

lemma pairSets_map_preserving (f : SetRow → SetRow)
    (hf : ∀ r, (f r).workout_id = r.workout_id
        ∧ (f r).exercise_id = r.exercise_id)
    (st : List SetRow) (w e : Nat) :
    pairSets (st.map f) w e = (pairSets st w e).map f := by
  unfold pairSets
  rw [List.filter_map]
  have : ((fun r => decide (r.workout_id = w ∧ r.exercise_id = e)) ∘ f)
      = fun r => decide (r.workout_id = w ∧ r.exercise_id = e) := by
    funext r
    simp [Function.comp, (hf r).1, (hf r).2]
  rw [this]

/-- C10: after `update_last_set_hr` overwrites the most recent set's
`set_number` with the heart rate `hr`, if `hr` exceeds every other
set_number stored for the pair then the pair's `MAX(set_number)` becomes
`hr`, and the next `add_set` for the pair assigns `set_number = hr + 1`. -/
theorem C10_hr_feeds_numbering (st : List SetRow) (w e hr : Nat)
    (c : SetRow) (hc : lastSet? st w e = some c)
    (hother : ∀ r ∈ st, r.workout_id = w → r.exercise_id = e →
        r.id ≠ c.id → r.set_number < hr) :
    maxSetNumber (update_last_set_hr st w e hr) w e = hr
    ∧ ∀ (reps : Int) (weight : ℚ) (id ts : Nat),
        (add_set (update_last_set_hr st w e hr) w e reps weight id ts).head?
          = some ⟨id, w, e, hr + 1, reps, weight, ts⟩ := by
  have hcmem := lastSet?_mem hc
  have hmax : maxSetNumber (update_last_set_hr st w e hr) w e = hr := by
    unfold update_last_set_hr
    rw [hc]
    set f : SetRow → SetRow :=
      fun r => if r.id = c.id then { r with set_number := hr } else r with hfdef
    have hpres : ∀ r, (f r).workout_id = r.workout_id
        ∧ (f r).exercise_id = r.exercise_id := by
      intro r
      by_cases hid : r.id = c.id <;> simp [hfdef, hid]
    unfold maxSetNumber
    rw [pairSets_map_preserving f hpres st w e, List.map_map]
    apply foldr_max_eq
    · have hcpair : c ∈ pairSets st w e :=
        List.mem_filter.2 ⟨hcmem.1, by simp [hcmem.2.1, hcmem.2.2]⟩
      have : ((·.set_number) ∘ f) c = hr := by simp [hfdef]
      rw [← this]
      exact List.mem_map_of_mem _ hcpair
    · intro x hx
      rcases List.mem_map.1 hx with ⟨r, hrmem, hrx⟩
      have hrst := List.mem_filter.1 hrmem
      have hpair : r.workout_id = w ∧ r.exercise_id = e := by
        simpa using hrst.2
      by_cases hid : r.id = c.id
      · rw [← hrx]
        simp [hfdef, hid]
      · have := hother r hrst.1 hpair.1 hpair.2 hid
        rw [← hrx]
        simp only [Function.comp, hfdef, if_neg hid]
        exact le_of_lt this
  refine ⟨hmax, ?_⟩
  intro reps weight id ts
  unfold add_set
  rw [hmax]
  rfl

theorem C10_hr_feeds_numbering_witness :
    maxSetNumber (update_last_set_hr [⟨21, 1, 2, 1, 10, 100, 0⟩] 1 2 150) 1 2
      = 150
    ∧ (add_set (update_last_set_hr [⟨21, 1, 2, 1, 10, 100, 0⟩] 1 2 150)
        1 2 8 105 22 1).head? = some ⟨22, 1, 2, 151, 8, 105, 1⟩ := by
  have h := C10_hr_feeds_numbering [⟨21, 1, 2, 1, 10, 100, 0⟩] 1 2 150
    ⟨21, 1, 2, 1, 10, 100, 0⟩ rfl
    (by
      intro r hr hw he hid
      rcases List.mem_cons.1 hr with rfl | hmem
      · exact absurd rfl hid
      · cases hmem)
  exact ⟨h.1, h.2 8 105 22 1⟩

/-- The loop of `database.get_workout_streak`: walk the remaining
(descending) dates, incrementing while each equals the expected previous
day and stopping at the first mismatch. -/
def streakLoop (expected : Int) : List Int → Nat
  | [] => 0
  | d :: ds => if d = expected then 1 + streakLoop (d - 1) ds else 0

/-- `database.get_workout_streak`.  `dates` models the SQL result: the
distinct `workout_date`s of workouts having at least one set, sorted
descending; calendar dates are consecutive integers (day numbers) and
`today` is the current day. -/
def get_workout_streak (today : Int) (dates : List Int) : Nat :=
  match dates with
  | [] => 0
  | m :: ds =>
    if m ≠ today ∧ m ≠ today - 1 then 0 else 1 + streakLoop (m - 1) ds

lemma streakLoop_spec (ds : List Int) : ∀ e : Int,
    List.Pairwise (fun a b => b < a) ds → (∀ x ∈ ds, x ≤ e) →
    (∀ i : Nat, i < streakLoop e ds → e - i ∈ ds)
    ∧ (e - (streakLoop e ds : Int)) ∉ ds := by
  induction ds with
  | nil =>
    intro e _ _
    exact ⟨fun i hi => absurd hi (Nat.not_lt_zero i), by simp⟩
  | cons d ds ih =>
    intro e hsort hle
    have hd_le : d ≤ e := hle d (List.mem_cons_self d ds)
    have hlt : ∀ x ∈ ds, x < d := fun x hx =>
      (List.pairwise_cons.1 hsort).1 x hx
    have hsort' := (List.pairwise_cons.1 hsort).2
    by_cases hde : d = e
    · have hle' : ∀ x ∈ ds, x ≤ e - 1 := fun x hx => by
        have := hlt x hx
        omega
      obtain ⟨H1, H2⟩ := ih (e - 1) hsort' hle'
      have hval : streakLoop e (d :: ds) = 1 + streakLoop (e - 1) ds := by
        simp [streakLoop, hde]
      constructor
      · intro i hi
        rw [hval] at hi
        match i with
        | 0 =>
          have : e - ((0 : Nat) : Int) = d := by omega
          rw [this]
          exact List.mem_cons_self d ds
        | (j + 1) =>
          have hj : j < streakLoop (e - 1) ds := by omega
          have heq : e - ((j + 1 : Nat) : Int) = (e - 1) - (j : Int) := by
            push_cast
            ring
          rw [heq]
          exact List.mem_cons_of_mem d (H1 j hj)
      · rw [hval]
        have heq : e - ((1 + streakLoop (e - 1) ds : Nat) : Int)
            = (e - 1) - (streakLoop (e - 1) ds : Int) := by
          push_cast
          ring
        rw [heq]
        intro hmem
        rcases List.mem_cons.1 hmem with habs | hmem'
        · omega
        · exact H2 hmem'
    · have hval : streakLoop e (d :: ds) = 0 := by
        simp only [streakLoop, if_neg hde]
      constructor
      · intro i hi
        rw [hval] at hi
        exact absurd hi (Nat.not_lt_zero i)
      · rw [hval]
        intro hmem
        rcases List.mem_cons.1 hmem with habs | hmem'
        · omega
        · have := hlt _ hmem'
          omega

/-- C6: `get_workout_streak` returns 0 with no (non-empty) workouts, 0 when
the most recent date is neither today nor yesterday, and otherwise the
count of consecutive calendar days walking backward from the most recent
date: every day in the counted range is a workout date and the day past the
count is not (the first gap stops it).  On dates 1, 2, 3 it returns 3 when
today is 3 and 0 when today is 5 (the claim's 2024-01-01..03 example with
dates as day numbers). -/
theorem C6_workout_streak (today : Int) (dates : List Int)
    (hsort : List.Pairwise (fun a b => b < a) dates) :
    (dates = [] → get_workout_streak today dates = 0)
    ∧ (∀ m ds, dates = m :: ds → m ≠ today → m ≠ today - 1 →
        get_workout_streak today dates = 0)
    ∧ (∀ m ds, dates = m :: ds → (m = today ∨ m = today - 1) →
        1 ≤ get_workout_streak today dates
        ∧ (∀ i : Nat, i < get_workout_streak today dates →
            m - (i : Int) ∈ dates)
        ∧ (m - (get_workout_streak today dates : Int)) ∉ dates)
    ∧ get_workout_streak 3 [3, 2, 1] = 3
    ∧ get_workout_streak 5 [3, 2, 1] = 0 := by
  refine ⟨?_, ?_, ?_, by decide, by decide⟩
  · intro h
    rw [h]
    rfl
  · intro m ds hdd h1 h2
    rw [hdd]
    simp only [get_workout_streak, if_pos (And.intro h1 h2)]
  · intro m ds hdd hanchor
    subst hdd
    have hcond : ¬ (m ≠ today ∧ m ≠ today - 1) := by tauto
    have hval : get_workout_streak today (m :: ds)
        = 1 + streakLoop (m - 1) ds := by
      simp only [get_workout_streak, if_neg hcond]
    have hlt : ∀ x ∈ ds, x < m := fun x hx =>
      (List.pairwise_cons.1 hsort).1 x hx
    have hsort' := (List.pairwise_cons.1 hsort).2
    obtain ⟨H1, H2⟩ := streakLoop_spec ds (m - 1) hsort'
      (fun x hx => by
        have := hlt x hx
        omega)
    refine ⟨by rw [hval]; omega, ?_, ?_⟩
    · intro i hi
      rw [hval] at hi
      match i with
      | 0 =>
        have : m - ((0 : Nat) : Int) = m := by omega
        rw [this]
        exact List.mem_cons_self m ds
      | (j + 1) =>
        have hj : j < streakLoop (m - 1) ds := by omega
        have heq : m - ((j + 1 : Nat) : Int) = (m - 1) - (j : Int) := by
          push_cast
          ring
        rw [heq]
        exact List.mem_cons_of_mem m (H1 j hj)
    · rw [hval]
      have heq : m - ((1 + streakLoop (m - 1) ds : Nat) : Int)
          = (m - 1) - (streakLoop (m - 1) ds : Int) := by
        push_cast
        ring
      rw [heq]
      intro hmem
      rcases List.mem_cons.1 hmem with habs | hmem'
      · omega
      · exact H2 hmem'

theorem C6_workout_streak_witness : get_workout_streak 3 [3, 2, 1] = 3 :=
  (C6_workout_streak 3 [3, 2, 1] (by decide)).2.2.2.1

/-- The `pr_type` values the strength flow writes to `personal_records`. -/
inductive PrType
  | weight
  | one_rm
deriving DecidableEq

/-- A row of the `personal_records` table (the columns the flow writes,
with the free-text context omitted). -/
structure PRRow where
  exercise_id : Nat
  pr_type : PrType
  value : ℚ
  achieved_date : Int
deriving DecidableEq

/-- The database state touched by the strength submit flow; lists hold
the most recently inserted row first. -/
structure DBState where
  sets : List StrengthRow
  prs : List PRRow
deriving DecidableEq

/-- State after the `db.add_set` transaction of the strength submit flow
commits: the Set row is persisted, the PR log is untouched. -/
def flowSt1 (st : DBState) (ex : Nat) (w : ℚ) (reps : Nat) (d : Int) :
    DBState :=
  ⟨⟨ex, w, reps, d⟩ :: st.sets, st.prs⟩

/-- State after the weight-PR `db.log_pr` transaction (a no-op transaction
when `is_weight_pr` is false).  `check_if_pr` runs against the database
after the insert; its `workout_date < d` filter excludes the same-day row. -/
def flowSt2 (st : DBState) (ex : Nat) (w : ℚ) (reps : Nat) (d : Int) :
    DBState :=
  let st1 := flowSt1 st ex w reps d
  if (check_if_pr st1.sets ex w reps d).is_weight_pr then
    ⟨st1.sets, ⟨ex, .weight, w, d⟩ :: st1.prs⟩
  else st1

/-- State after the 1RM-PR `db.log_pr` transaction: the final state of the
flow. -/
def flowSt3 (st : DBState) (ex : Nat) (w : ℚ) (reps : Nat) (d : Int) :
    DBState :=
  let st1 := flowSt1 st ex w reps d
  let st2 := flowSt2 st ex w reps d
  if (check_if_pr st1.sets ex w reps d).is_1rm_pr then
    ⟨st2.sets, ⟨ex, .one_rm, calculate_estimated_1rm w reps, d⟩ :: st2.prs⟩
  else st2

/-- The crash-reachable states of the strength submit flow of `app.py`:
each `db.*` call opens its own `get_db` connection, which commits before
the next call starts, so a failure between calls leaves the state after
some prefix of the transactions. -/
def strengthFlowStates (st : DBState) (ex : Nat) (w : ℚ) (reps : Nat)
    (d : Int) : List DBState :=
  [st, flowSt1 st ex w reps d, flowSt2 st ex w reps d,
    flowSt3 st ex w reps d]

/-- C7 (counterexample): starting from an empty database and logging a
100 lbs x 5 set (a weight PR and a 1RM PR), the state after the `add_set`
transaction commits — Set row persisted, PR log empty — is crash-reachable
and is neither the initial state (nothing written) nor the final state
(whose PR log has both records): the flow is not atomic. -/
theorem C7_atomicity_counterexample :
    strengthFlowStates ⟨[], []⟩ 1 100 5 1
      = [⟨[], []⟩,
         ⟨[⟨1, 100, 5, 1⟩], []⟩,
         ⟨[⟨1, 100, 5, 1⟩], [⟨1, .weight, 100, 1⟩]⟩,
         ⟨[⟨1, 100, 5, 1⟩],
          [⟨1, .one_rm, 100 * (1 + (5:ℚ)/30), 1⟩, ⟨1, .weight, 100, 1⟩]⟩]
    ∧ (⟨[⟨1, 100, 5, 1⟩], []⟩ : DBState) ≠ ⟨[], []⟩
    ∧ (⟨[⟨1, 100, 5, 1⟩], []⟩ : DBState)
        ≠ ⟨[⟨1, 100, 5, 1⟩],
           [⟨1, .one_rm, 100 * (1 + (5:ℚ)/30), 1⟩, ⟨1, .weight, 100, 1⟩]⟩ := by
  have hpr : check_if_pr [⟨1, 100, 5, 1⟩] 1 100 5 1
      = ⟨true, 0, true, 0⟩ := by
    have hempty : priorStrength [⟨1, 100, 5, 1⟩] 1 1 = [] := rfl
    unfold check_if_pr
    rw [hempty]
    simp only [List.map_nil, sqlMax, pyOrElse]
    norm_num
  refine ⟨?_, by simp, by simp⟩
  unfold strengthFlowStates flowSt3 flowSt2 flowSt1
  simp only [hpr]
  norm_num [calculate_estimated_1rm]

/-- C7 (amended): each `db` call is individually atomic (its `get_db`
transaction commits wholly or rolls back), but the flow "add set and
evaluate PR" spans several transactions: the state with the Set row
persisted and the PR log untouched is always crash-reachable, and whenever
a PR flag is true the completed flow's PR log differs from the starting
one, so a failure between the Set insert and the PR-log append leaves a
partially committed state. -/
theorem C7_atomicity_amended (st : DBState) (ex : Nat) (w : ℚ)
    (reps : Nat) (d : Int) :
    (⟨⟨ex, w, reps, d⟩ :: st.sets, st.prs⟩ : DBState)
        ∈ strengthFlowStates st ex w reps d
    ∧ (((check_if_pr (⟨ex, w, reps, d⟩ :: st.sets) ex w reps d).is_weight_pr
          = true
        ∨ (check_if_pr (⟨ex, w, reps, d⟩ :: st.sets) ex w reps d).is_1rm_pr
          = true)
       → (flowSt3 st ex w reps d).prs ≠ st.prs) := by
  constructor
  · exact List.mem_cons_of_mem _ (List.mem_cons_self _ _)
  · intro hflag heq
    have hlen := congrArg List.length heq
    by_cases hw : (check_if_pr (⟨ex, w, reps, d⟩ :: st.sets) ex w reps d).is_weight_pr = true
    · by_cases h1 : (check_if_pr (⟨ex, w, reps, d⟩ :: st.sets) ex w reps d).is_1rm_pr = true
      · simp [flowSt3, flowSt2, flowSt1, hw, h1] at hlen
        omega
      · simp [flowSt3, flowSt2, flowSt1, hw, h1] at hlen
    · by_cases h1 : (check_if_pr (⟨ex, w, reps, d⟩ :: st.sets) ex w reps d).is_1rm_pr = true
      · simp [flowSt3, flowSt2, flowSt1, hw, h1] at hlen
      · rcases hflag with hf | hf
        · exact hw hf
        · exact h1 hf

theorem C7_atomicity_witness :
    (flowSt3 ⟨[], []⟩ 1 100 5 1).prs ≠ ([] : List PRRow) := by
  have h := C7_atomicity_amended ⟨[], []⟩ 1 100 5 1
  apply h.2
  left
  have hempty : priorStrength [⟨1, 100, 5, 1⟩] 1 1 = [] := rfl
  unfold check_if_pr
  rw [hempty]
  simp only [List.map_nil, sqlMax, pyOrElse]
  norm_num

/-- The error channel observable from a `db` call.  `typeError` models the
Python `TypeError` that `dict(None)` raises; `notFoundError` models the
`NotFoundError` the specification postulates — no code path produces it. -/
inductive DbError
  | typeError
  | notFoundError
deriving DecidableEq

/-- A row of the `workouts` table (columns relevant here). -/
structure WorkoutRow where
  id : Nat
  workout_date : Int
deriving DecidableEq

/-- The record store for the workout-level operations. -/
structure WStore where
  workouts : List WorkoutRow
  sets : List SetRow
deriving DecidableEq

/-- Observable outcome of `database.delete_set`: `DELETE FROM sets WHERE
id = set_id` — no existence check, never an error; a nonexistent id is a
silent no-op. -/
def delete_set_outcome (st : WStore) (set_id : Nat) :
    Except DbError WStore :=
  .ok ⟨st.workouts, delete_set st.sets set_id⟩

/-- Observable outcome of `database.delete_workout` (the `ON DELETE
CASCADE` clause removes the workout's sets): no existence check, never an
error. -/
def delete_workout_outcome (st : WStore) (workout_id : Nat) :
    Except DbError WStore :=
  .ok ⟨st.workouts.filter fun r => decide (¬ r.id = workout_id),
       st.sets.filter fun r => decide (¬ r.workout_id = workout_id)⟩

/-- `database.get_workout_details`: `dict(cursor.fetchone())` raises a
`TypeError` when no workout row matches (`fetchone` returns `None`);
otherwise the workout and its sets are returned. -/
def get_workout_details (st : WStore) (workout_id : Nat) :
    Except DbError (WorkoutRow × List SetRow) :=
  match st.workouts.find? (fun r => decide (r.id = workout_id)) with
  | none => .error .typeError
  | some wrow =>
    .ok (wrow, st.sets.filter fun s => decide (s.workout_id = workout_id))

/-- C8 (counterexample): on an empty store, `delete_set` and
`delete_workout` with nonexistent ids succeed silently (no error of any
kind), and `get_workout_details` with a nonexistent id fails with the
`TypeError` of `dict(None)` — not with a `NotFoundError`. -/
theorem C8_not_found_counterexample :
    delete_set_outcome ⟨[], []⟩ 5 = .ok ⟨[], []⟩
    ∧ delete_workout_outcome ⟨[], []⟩ 6 = .ok ⟨[], []⟩
    ∧ get_workout_details ⟨[], []⟩ 7 = .error .typeError
    ∧ DbError.typeError ≠ DbError.notFoundError :=
  ⟨rfl, rfl, rfl, by decide⟩

/-- C8 (amended): operations referencing a nonexistent id do not fail with
a `NotFoundError` (no code path raises one): `delete_set` and
`delete_workout` are silent no-ops that never produce an error, and
`get_workout_details` fails with the unhandled `TypeError` of
`dict(None)`. -/
theorem C8_not_found_amended (st : WStore) (i : Nat) :
    ((∀ r ∈ st.sets, r.id ≠ i) → delete_set_outcome st i = .ok st)
    ∧ ((∀ w ∈ st.workouts, w.id ≠ i) → (∀ s ∈ st.sets, s.workout_id ≠ i)
        → delete_workout_outcome st i = .ok st)
    ∧ ((∀ w ∈ st.workouts, w.id ≠ i)
        → get_workout_details st i = .error .typeError)
    ∧ (∀ err : DbError, delete_set_outcome st i ≠ .error err)
    ∧ (∀ err : DbError, delete_workout_outcome st i ≠ .error err)
    ∧ get_workout_details st i ≠ .error .notFoundError := by
  obtain ⟨wks, sts⟩ := st
  refine ⟨?_, ?_, ?_, ?_, ?_, ?_⟩
  · intro h
    unfold delete_set_outcome delete_set
    have : sts.filter (fun r => decide (¬ r.id = i)) = sts :=
      List.filter_eq_self.2 fun a ha => by simpa using h a ha
    rw [this]
  · intro hw hs
    unfold delete_workout_outcome
    have h1 : wks.filter (fun r => decide (¬ r.id = i)) = wks :=
      List.filter_eq_self.2 fun a ha => by simpa using hw a ha
    have h2 : sts.filter (fun r => decide (¬ r.workout_id = i)) = sts :=
      List.filter_eq_self.2 fun a ha => by simpa using hs a ha
    rw [h1, h2]
  · intro hw
    unfold get_workout_details
    have : wks.find? (fun r => decide (r.id = i)) = none :=
      List.find?_eq_none.2 fun a ha => by simpa using hw a ha
    rw [this]
  · intro err h
    exact Except.noConfusion h
  · intro err h
    exact Except.noConfusion h
  · unfold get_workout_details
    cases wks.find? (fun r => decide (r.id = i)) with
    | none =>
      intro h
      have := Except.error.inj h
      exact DbError.noConfusion this
    | some wrow =>
      intro h
      exact Except.noConfusion h

theorem C8_not_found_witness :
    delete_set_outcome ⟨[⟨1, 10⟩], [⟨2, 1, 1, 1, 5, 50, 0⟩]⟩ 99
        = .ok ⟨[⟨1, 10⟩], [⟨2, 1, 1, 1, 5, 50, 0⟩]⟩
    ∧ get_workout_details ⟨[⟨1, 10⟩], [⟨2, 1, 1, 1, 5, 50, 0⟩]⟩ 99
        = .error .typeError := by
  have h := C8_not_found_amended ⟨[⟨1, 10⟩], [⟨2, 1, 1, 1, 5, 50, 0⟩]⟩ 99
  refine ⟨h.1 ?_, h.2.2.1 ?_⟩
  · intro r hr
    rcases List.mem_cons.1 hr with rfl | hmem
    · decide
    · cases hmem
  · intro wrow hw
    rcases List.mem_cons.1 hw with rfl | hmem
    · decide
    · cases hmem

end WorkoutTracker
